import Mathlib

/-! ## Verification of the InfluxDB v8 importer, `importer/v8/importer.go`

Shallow embedding of the importer's core pipeline: the two-phase line scanner
(`processDDL`, `processDML`), the batching accumulator (`batchAccumulator`),
and the rate-throttled flush (`batchWrite`).

Modelling conventions:
* Go strings are Lean `String`s; the Go standard-library operations used by the
  importer (`strings.HasPrefix`, `strings.TrimSpace`, `strings.Split`,
  `strings.Join`) are re-implemented below on the underlying character lists.
* Wall-clock time is an oracle `Env.clock : Nat → Int` giving the value, in
  nanoseconds (the unit of Go's `time.Duration`), of each successive clock
  reading (`time.Since` / `time.Now` call); the importer state carries the
  number of readings consumed so far (`clockReads`).  The ticker wait
  `<-i.throttle.C` does not itself read the clock: the elapsed wait shows up
  in the next reading.
* The transport (`client.Client`) is an oracle `Env.writeOk : Nat → Bool`
  giving the success of each successive `WriteLineProtocol` call; observable
  transport traffic and console output are recorded in an `output` event list.
  Log-only statements (`log.Printf`, the 100000-line status report) are pure
  side effects with no influence on state and are not recorded.
* Go's float64 rate computation `int(float64(n) / since.Seconds())`, with
  `since.Seconds() = nanoseconds / 1e9`, is modelled as the exact rational
  `n * 1e9 / nanoseconds` truncated toward zero (`goRatToInt`).
* The unbounded throttle-retry recursion in `batchWrite` is given fuel; `none`
  means the retry loop did not resolve within the fuel, i.e. nontermination of
  that run.
-/

namespace ImporterV8

/-- Go `unicode.IsSpace`, restricted to the Latin-1 white-space characters
(the only ones relevant to the dump format): space, `\t`, `\n`, vertical tab,
form feed, `\r`, NEL and NBSP. -/
def goIsSpace (c : Char) : Bool :=
  c == ' ' || c == '\t' || c == '\n' || c == '\x0b' || c == '\x0c' || c == '\r' ||
    c == '\u0085' || c == '\u00A0'

/-- Go `strings.TrimSpace`. -/
def goTrimSpace (s : String) : String :=
  String.mk (((s.data.dropWhile goIsSpace).reverse.dropWhile goIsSpace).reverse)

/-- Go `strings.HasPrefix s p`. -/
def goStartsWith (s p : String) : Bool :=
  p.data.isPrefixOf s.data

/-- Go `strings.Split` with a one-character separator, on character lists. -/
def splitChar (sep : Char) : List Char → List (List Char)
  | [] => [[]]
  | c :: cs =>
    match splitChar sep cs with
    | [] => [[c]]
    | h :: t => if c == sep then [] :: h :: t else (c :: h) :: t

/-- Go `strings.Split s (String.singleton sep)`. -/
def goSplit (s : String) (sep : Char) : List String :=
  (splitChar sep s.data).map String.mk

/-- Go `strings.Join xs sep`. -/
def goJoin (sep : String) : List String → String
  | [] => ""
  | [x] => x
  | x :: xs => x ++ sep ++ goJoin sep xs

/-- Go `int(x)` conversion of an exact rational: truncation toward zero. -/
def goRatToInt (q : ℚ) : Int := Int.tdiv q.num (q.den : Int)

/-- Go `const batchSize = 5000`. -/
def batchSize : Nat := 5000

/-- The phase-1 terminator `"# DML"`. -/
def dmlMarker : String := "# DML"

/-- The database context directive `"# CONTEXT-DATABASE:"`. -/
def ctxDatabase : String := "# CONTEXT-DATABASE:"

/-- The retention-policy context directive `"# CONTEXT-RETENTION-POLICY:"`. -/
def ctxRetention : String := "# CONTEXT-RETENTION-POLICY:"

/-- The fields of `v8.Config` the core pipeline reads (`client.Config`'s
`Precision` and `WriteConsistency` are flattened in). -/
structure Config where
  PPS : Int
  Precision : String
  WriteConsistency : String

/-- External world: successive clock readings (nanoseconds) and transport
write outcomes. -/
structure Env where
  clock : Nat → Int
  writeOk : Nat → Bool

/-- Arguments of one `client.WriteLineProtocol` transport call. -/
structure WriteCall where
  body : String
  database : String
  retentionPolicy : String
  precision : String
  consistency : String

/-- Observable effects: a `client.Query` call, a `WriteLineProtocol` call with
its outcome, and the re-emission of a failed batch to stdout (the capture
sink). -/
inductive OutputEvent where
  | query (command : String) (database : String)
  | write (call : WriteCall) (ok : Bool)
  | capture (body : String)

/-- The `v8.Importer` struct, plus the model's effect ledger (`clockReads`,
`writeCount`, `output`). -/
structure Importer where
  database : String
  retentionPolicy : String
  config : Config
  batch : List String
  totalInserts : Nat
  failedInserts : Nat
  totalCommands : Nat
  throttlePointsWritten : Int
  lastWrite : Int
  createDatabaseQuery : String
  clockReads : Nat
  writeCount : Nat
  output : List OutputEvent

/-- Go `v8.NewImporter`: zero-valued state with the given config. -/
def newImporter (cfg : Config) : Importer :=
  { database := "", retentionPolicy := "", config := cfg, batch := [],
    totalInserts := 0, failedInserts := 0, totalCommands := 0,
    throttlePointsWritten := 0, lastWrite := 0, createDatabaseQuery := "",
    clockReads := 0, writeCount := 0, output := [] }

/-- Advance the clock-reading ledger by `k` (consume `k` clock readings). -/
def bumpClock (k : Nat) (i : Importer) : Importer :=
  { i with clockReads := i.clockReads + k }

/-- Go `i.throttlePointsWritten += len(i.batch)`, the provisional accumulation at
the top of `batchWrite`. -/
def accumTPW (i : Importer) : Importer :=
  { i with throttlePointsWritten := i.throttlePointsWritten + (i.batch.length : Int) }

/-- Go `currentPPS` as computed at the top of `batchWrite`: after the provisional
accumulation, the raw accumulated count if the elapsed time since `lastWrite`
is not positive (`since.Seconds() > 0` fails), otherwise the accumulated count
divided by the elapsed seconds (`nanoseconds / 1e9`), truncated to an integer.
The elapsed reading `time.Since(i.lastWrite)` is the clock reading at index
`i.clockReads`, minus `i.lastWrite`. -/
def attemptRate (env : Env) (i : Importer) : Int :=
  if 0 < env.clock i.clockReads - i.lastWrite then
    goRatToInt (((accumTPW i).throttlePointsWritten : ℚ) * 1000000000 /
      ((env.clock i.clockReads - i.lastWrite : Int) : ℚ))
  else
    (accumTPW i).throttlePointsWritten

/-- The arguments of the transport write issued for the current batch:
`client.WriteLineProtocol(strings.Join(i.batch, "\n"), i.database,
i.retentionPolicy, i.config.Precision, i.config.WriteConsistency)`. -/
def writeCallOf (i : Importer) : WriteCall :=
  { body := goJoin "\n" i.batch, database := i.database,
    retentionPolicy := i.retentionPolicy, precision := i.config.Precision,
    consistency := i.config.WriteConsistency }

/-- The tail of `batchWrite` once the rate check has passed, applied to the
state in which `throttlePointsWritten` already holds the provisional
accumulation and the `time.Since` reading has been consumed: issue the
transport write; on failure re-emit the joined batch to stdout and add the
batch length to `failedInserts`, on success add it to `totalInserts`; then
reset `throttlePointsWritten` to zero and refresh `lastWrite` from the clock
(`time.Now()`). -/
def flushFinish (env : Env) (i : Importer) : Importer :=
  if env.writeOk i.writeCount then
    { i with writeCount := i.writeCount + 1,
             output := i.output ++ [OutputEvent.write (writeCallOf i) true],
             totalInserts := i.totalInserts + i.batch.length,
             throttlePointsWritten := 0,
             lastWrite := env.clock i.clockReads,
             clockReads := i.clockReads + 1 }
  else
    { i with writeCount := i.writeCount + 1,
             output := i.output ++ [OutputEvent.write (writeCallOf i) false,
                                    OutputEvent.capture (goJoin "\n" i.batch)],
             failedInserts := i.failedInserts + i.batch.length,
             throttlePointsWritten := 0,
             lastWrite := env.clock i.clockReads,
             clockReads := i.clockReads + 1 }

/-- Go `Importer.batchWrite`: accumulate the batch length into
`throttlePointsWritten`, read the elapsed time, compute `currentPPS`
(`attemptRate`); if the limit is configured and exceeded, wait for a ticker
tick, decrement the batch length back out, and retry; otherwise perform the
transport write and resolve (`flushFinish`).  The fuel bounds the number of
retries; `none` models a run of retries that never resolves. -/
def batchWrite (env : Env) : Nat → Importer → Option Importer
  | 0, _ => none
  | fuel + 1, i =>
    if attemptRate env i > i.config.PPS ∧ i.config.PPS ≠ 0 then
      batchWrite env fuel
        { bumpClock 1 (accumTPW i) with
            throttlePointsWritten :=
              (accumTPW i).throttlePointsWritten - ((accumTPW i).batch.length : Int) }
    else
      some (flushFinish env (bumpClock 1 (accumTPW i)))

/-- Go `Importer.batchAccumulator`: append the line; when the batch reaches
`batchSize`, flush it through `batchWrite` and clear it (the status log
emitted at that point is effect-free and not modelled). -/
def batchAccumulator (env : Env) (fuel : Nat) (line : String) (i : Importer) :
    Option Importer :=
  let i1 := { i with batch := i.batch ++ [line] }
  if i1.batch.length = batchSize then
    match batchWrite env fuel i1 with
    | none => none
    | some i2 => some { i2 with batch := [] }
  else
    some i1

/-- The two context-directive updates at the top of the `processDML` scan loop:
absent an override, a `# CONTEXT-DATABASE:` line sets `database` to the trimmed
element 1 of the colon-split of the line, and symmetrically for
`# CONTEXT-RETENTION-POLICY:` and `retentionPolicy`. -/
def applyContext (dboverride rpoverride line : String) (i : Importer) : Importer :=
  let i1 :=
    if dboverride = "" ∧ goStartsWith line ctxDatabase = true then
      { i with database := goTrimSpace ((goSplit line ':').getD 1 "") }
    else i
  if rpoverride = "" ∧ goStartsWith line ctxRetention = true then
    { i1 with retentionPolicy := goTrimSpace ((goSplit line ':').getD 1 "") }
  else i1

/-- The `processDML` scan loop: apply context directives, skip comment and
blank lines, hand data lines to `batchAccumulator`; at stream end call
`batchWrite` one last time to flush whatever is in the batch. -/
def processDMLLoop (env : Env) (fuel : Nat) (dboverride rpoverride : String) :
    List String → Importer → Option Importer
  | [], i => batchWrite env fuel i
  | line :: rest, i =>
    let i1 := applyContext dboverride rpoverride line i
    if goStartsWith line "#" = true then
      processDMLLoop env fuel dboverride rpoverride rest i1
    else if goTrimSpace line = "" then
      processDMLLoop env fuel dboverride rpoverride rest i1
    else
      match batchAccumulator env fuel line i1 with
      | none => none
      | some i2 => processDMLLoop env fuel dboverride rpoverride rest i2

/-- Go `Importer.queryExecutor`: count the command and issue it through the
transport (`execute` only logs the response, so only the call is recorded). -/
def queryExecutor (i : Importer) (command : String) : Importer :=
  { i with totalCommands := i.totalCommands + 1,
           output := i.output ++ [OutputEvent.query command i.database] }

/-- Go `Importer.processDML`: apply the destination-database override (replacing
the schema command with `CREATE DATABASE <override>`), issue the schema
command, apply the retention-policy override, then run the scan loop. -/
def processDML (env : Env) (fuel : Nat) (dboverride rpoverride : String)
    (lines : List String) (i : Importer) : Option Importer :=
  let i1 :=
    if dboverride ≠ "" then
      { i with createDatabaseQuery := "CREATE DATABASE " ++ dboverride,
               database := dboverride }
    else i
  let i2 := queryExecutor i1 i1.createDatabaseQuery
  let i3 := if rpoverride ≠ "" then { i2 with retentionPolicy := rpoverride } else i2
  processDMLLoop env fuel dboverride rpoverride lines i3

/-- Go `Importer.processDDL`: scan until a line with the `# DML` marker (consumed,
not returned); skip comment and blank lines; any other line overwrites
`createDatabaseQuery`.  Returns the state and the unconsumed remainder of the
stream. -/
def processDDL : List String → Importer → Importer × List String
  | [], i => (i, [])
  | line :: rest, i =>
    if goStartsWith line dmlMarker = true then (i, rest)
    else if goStartsWith line "#" = true then processDDL rest i
    else if goTrimSpace line = "" then processDDL rest i
    else processDDL rest { i with createDatabaseQuery := line }

/-- The terminal outcome computed at the end of `Import` (after a clean scan):
`some msg` is the returned error (`"%d point%s not inserted"` with `" was"` /
`"s were"` pluralization), `none` is success. -/
def importOutcome (failedInserts : Nat) : Option String :=
  if 0 < failedInserts then
    some (toString failedInserts ++ " point" ++
      (if 1 < failedInserts then "s were" else " was") ++ " not inserted")
  else
    none

/-- The post-setup portion of `Import`: run `processDDL`, prime `lastWrite`
with a fresh clock reading (`i.lastWrite = time.Now()`), run `processDML` on
the remaining lines, and compute the terminal outcome from `failedInserts`.
Setup failures and scanner read errors are outside this model's scope. -/
def importRun (env : Env) (fuel : Nat) (dboverride rpoverride : String)
    (lines : List String) (i : Importer) : Option (Importer × Option String) :=
  let p := processDDL lines i
  let i1 := { p.1 with lastWrite := env.clock p.1.clockReads,
                       clockReads := p.1.clockReads + 1 }
  match processDML env fuel dboverride rpoverride p.2 i1 with
  | none => none
  | some i2 => some (i2, importOutcome i2.failedInserts)

/-- A data line of phase 2: neither comment-prefixed nor blank. -/
def isDataLine (line : String) : Bool :=
  !(goStartsWith line "#") && !(goTrimSpace line == "")

/-- Every transport write in `l` targets database `d`. -/
def writesTarget (d : String) (l : List OutputEvent) : Prop :=
  ∀ (c : WriteCall) (b : Bool), OutputEvent.write c b ∈ l → c.database = d

/-- Written from the spec's words, for comparison with the code: the entire
remainder of the line after the first colon (empty when there is no colon). -/
def specAfterFirstColon (s : String) : String :=
  String.mk ((s.data.dropWhile (fun c => !(c == ':'))).tail)

/-- Written from the spec's words, for comparison with the code: the trimmed
entire remainder of the line after the first colon. -/
def specContextValue (s : String) : String :=
  goTrimSpace (specAfterFirstColon s)

/-- The initial segment of a string up to (excluding) its first colon. -/
def upToColon (s : String) : String :=
  String.mk (s.data.takeWhile (fun c => !(c == ':')))

/-! ### Concrete environments and runs used by the witnesses -/

/-- Clock frozen at 0 (so every elapsed reading is `0`, the "zero or negative
elapsed" branch), all transport writes succeed. -/
def envTriv : Env := { clock := fun _ => 0, writeOk := fun _ => true }

/-- Clock frozen at 0, all transport writes fail. -/
def envFail : Env := { clock := fun _ => 0, writeOk := fun _ => false }

/-- No rate limit configured. -/
def cfg0 : Config := { PPS := 0, Precision := "n", WriteConsistency := "one" }

def c1run : Option Importer :=
  processDML envTriv 1 "" "" ["a", "#c", " ", "b"] (newImporter cfg0)

/-- A fresh importer holding two pending batch lines. -/
def c2st : Importer := { newImporter cfg0 with batch := ["p", "q"] }

def c2run : Option Importer := batchWrite envTriv 1 c2st

/-- A fresh importer holding three pending batch lines. -/
def c3st : Importer := { newImporter cfg0 with batch := ["p", "q", "r"] }

def c3run : Option Importer := batchWrite envFail 1 c3st

def c4run : Option (Importer × Option String) :=
  importRun envFail 1 "" "" ["# DDL", "CREATE DATABASE t", "# DML", "x", "y"]
    (newImporter cfg0)

def c5run : Option Importer :=
  processDMLLoop envTriv 1 "" "" ["x"] (newImporter cfg0)

def c5cexRun : Option Importer :=
  processDML envTriv 1 "" "" ["x"] (newImporter cfg0)

def c6cexRun : Option Importer :=
  processDML envTriv 1 "" "" ["# CONTEXT-DATABASE: a:b"] (newImporter cfg0)

def c7run : Option Importer :=
  processDML envTriv 1 "bar" "" ["# CONTEXT-DATABASE: foo", "m v=1"] (newImporter cfg0)

/-- A fresh importer holding one pending batch line. -/
def c9st : Importer := { newImporter cfg0 with batch := ["w"] }

def c9run : Option Importer := batchWrite envTriv 1 c9st

/-! ## Lemmas about the Go string helpers -/

theorem splitChar_ne_nil (sep : Char) (l : List Char) : splitChar sep l ≠ [] := by
  cases l with
  | nil => simp [splitChar]
  | cons c cs =>
    simp only [splitChar]
    split
    · simp
    · split <;> simp

theorem splitChar_length (sep : Char) (l : List Char) :
    (splitChar sep l).length = l.count sep + 1 := by
  induction l with
  | nil => simp [splitChar]
  | cons c cs ih =>
    simp only [splitChar]
    cases hr : splitChar sep cs with
    | nil => exact absurd hr (splitChar_ne_nil sep cs)
    | cons h t =>
      rw [hr] at ih
      simp only [List.count_cons]
      by_cases hc : c == sep
      · simp only [if_pos hc, List.length_cons] at *
        omega
      · simp only [if_neg hc, List.length_cons] at *
        omega

theorem splitChar_headD (sep : Char) (l : List Char) :
    (splitChar sep l).headD [] = l.takeWhile (fun c => !(c == sep)) := by
  induction l with
  | nil => simp [splitChar]
  | cons c cs ih =>
    simp only [splitChar]
    cases hr : splitChar sep cs with
    | nil => exact absurd hr (splitChar_ne_nil sep cs)
    | cons h t =>
      rw [hr] at ih
      simp only [List.headD_cons] at ih
      by_cases hc : c == sep
      · simp [hc, List.takeWhile_cons]
      · simp [hc, List.takeWhile_cons, ih]

theorem splitChar_getD_one (sep : Char) (l : List Char) (hmem : sep ∈ l) :
    (splitChar sep l).getD 1 [] =
      ((l.dropWhile (fun c => !(c == sep))).tail).takeWhile (fun c => !(c == sep)) := by
  induction l with
  | nil => cases hmem
  | cons c cs ih =>
    simp only [splitChar]
    cases hr : splitChar sep cs with
    | nil => exact absurd hr (splitChar_ne_nil sep cs)
    | cons h t =>
      by_cases hc : c == sep
      · have hhead := splitChar_headD sep cs
        rw [hr] at hhead
        simp only [List.headD_cons] at hhead
        simp [hc, List.dropWhile_cons, hhead]
      · have hmem' : sep ∈ cs := by
          rcases List.mem_cons.mp hmem with h1 | h1
          · exact absurd (by simp [h1]) hc
          · exact h1
        rw [hr] at ih
        simp only [hc, List.dropWhile_cons, Bool.not_false, if_true]
        exact ih hmem'

theorem goSplit_length (s : String) (sep : Char) :
    (goSplit s sep).length = s.data.count sep + 1 := by
  simp [goSplit, splitChar_length]

theorem getD_map_mk (L : List (List Char)) (n : Nat) :
    (L.map String.mk).getD n "" = String.mk (L.getD n []) := by
  induction L generalizing n with
  | nil => cases n <;> rfl
  | cons a t ih =>
    cases n with
    | zero => rfl
    | succ m => exact ih m

theorem goSplit_getD_one (s : String) (hmem : (':' : Char) ∈ s.data) :
    (goSplit s ':').getD 1 "" =
      String.mk (((s.data.dropWhile (fun c => !(c == ':'))).tail).takeWhile
        (fun c => !(c == ':'))) := by
  rw [goSplit, getD_map_mk, splitChar_getD_one ':' s.data hmem]

theorem mem_data_of_goStartsWith {s p : String} (h : goStartsWith s p = true)
    {c : Char} (hc : c ∈ p.data) : c ∈ s.data := by
  have hp : p.data <+: s.data := List.isPrefixOf_iff_prefix.mp h
  rcases hp with ⟨t, ht⟩
  rw [← ht]
  exact List.mem_append_left t hc

/-! ## Projection lemmas for the state helpers -/

@[simp] theorem bumpClock_clockReads (k : Nat) (i : Importer) :
    (bumpClock k i).clockReads = i.clockReads + k := rfl

@[simp] theorem bumpClock_database (k : Nat) (i : Importer) :
    (bumpClock k i).database = i.database := rfl

@[simp] theorem bumpClock_retentionPolicy (k : Nat) (i : Importer) :
    (bumpClock k i).retentionPolicy = i.retentionPolicy := rfl

@[simp] theorem bumpClock_config (k : Nat) (i : Importer) :
    (bumpClock k i).config = i.config := rfl

@[simp] theorem bumpClock_batch (k : Nat) (i : Importer) :
    (bumpClock k i).batch = i.batch := rfl

@[simp] theorem bumpClock_totalInserts (k : Nat) (i : Importer) :
    (bumpClock k i).totalInserts = i.totalInserts := rfl

@[simp] theorem bumpClock_failedInserts (k : Nat) (i : Importer) :
    (bumpClock k i).failedInserts = i.failedInserts := rfl

@[simp] theorem bumpClock_totalCommands (k : Nat) (i : Importer) :
    (bumpClock k i).totalCommands = i.totalCommands := rfl

@[simp] theorem bumpClock_throttlePointsWritten (k : Nat) (i : Importer) :
    (bumpClock k i).throttlePointsWritten = i.throttlePointsWritten := rfl

@[simp] theorem bumpClock_lastWrite (k : Nat) (i : Importer) :
    (bumpClock k i).lastWrite = i.lastWrite := rfl

@[simp] theorem bumpClock_createDatabaseQuery (k : Nat) (i : Importer) :
    (bumpClock k i).createDatabaseQuery = i.createDatabaseQuery := rfl

@[simp] theorem bumpClock_writeCount (k : Nat) (i : Importer) :
    (bumpClock k i).writeCount = i.writeCount := rfl

@[simp] theorem bumpClock_output (k : Nat) (i : Importer) :
    (bumpClock k i).output = i.output := rfl

@[simp] theorem accumTPW_throttlePointsWritten (i : Importer) :
    (accumTPW i).throttlePointsWritten =
      i.throttlePointsWritten + (i.batch.length : Int) := rfl

@[simp] theorem accumTPW_clockReads (i : Importer) :
    (accumTPW i).clockReads = i.clockReads := rfl

@[simp] theorem accumTPW_database (i : Importer) :
    (accumTPW i).database = i.database := rfl

@[simp] theorem accumTPW_retentionPolicy (i : Importer) :
    (accumTPW i).retentionPolicy = i.retentionPolicy := rfl

@[simp] theorem accumTPW_config (i : Importer) :
    (accumTPW i).config = i.config := rfl

@[simp] theorem accumTPW_batch (i : Importer) :
    (accumTPW i).batch = i.batch := rfl

@[simp] theorem accumTPW_totalInserts (i : Importer) :
    (accumTPW i).totalInserts = i.totalInserts := rfl

@[simp] theorem accumTPW_failedInserts (i : Importer) :
    (accumTPW i).failedInserts = i.failedInserts := rfl

@[simp] theorem accumTPW_totalCommands (i : Importer) :
    (accumTPW i).totalCommands = i.totalCommands := rfl

@[simp] theorem accumTPW_lastWrite (i : Importer) :
    (accumTPW i).lastWrite = i.lastWrite := rfl

@[simp] theorem accumTPW_createDatabaseQuery (i : Importer) :
    (accumTPW i).createDatabaseQuery = i.createDatabaseQuery := rfl

@[simp] theorem accumTPW_writeCount (i : Importer) :
    (accumTPW i).writeCount = i.writeCount := rfl

@[simp] theorem accumTPW_output (i : Importer) :
    (accumTPW i).output = i.output := rfl

theorem bumpClock_zero (i : Importer) : bumpClock 0 i = i := by
  cases i
  simp [bumpClock]

theorem bumpClock_bumpClock (a b : Nat) (i : Importer) :
    bumpClock a (bumpClock b i) = bumpClock (a + b) i := by
  cases i
  simp [bumpClock]
  omega

theorem writeCallOf_eq (k : Nat) (i : Importer) :
    writeCallOf (bumpClock 1 (accumTPW (bumpClock k i))) = writeCallOf i := rfl

/-! ## Characterization of `flushFinish` -/

theorem flushFinish_batch (env : Env) (i : Importer) :
    (flushFinish env i).batch = i.batch := by
  unfold flushFinish
  split <;> rfl

theorem flushFinish_database (env : Env) (i : Importer) :
    (flushFinish env i).database = i.database := by
  unfold flushFinish
  split <;> rfl

theorem flushFinish_retentionPolicy (env : Env) (i : Importer) :
    (flushFinish env i).retentionPolicy = i.retentionPolicy := by
  unfold flushFinish
  split <;> rfl

theorem flushFinish_config (env : Env) (i : Importer) :
    (flushFinish env i).config = i.config := by
  unfold flushFinish
  split <;> rfl

theorem flushFinish_createDatabaseQuery (env : Env) (i : Importer) :
    (flushFinish env i).createDatabaseQuery = i.createDatabaseQuery := by
  unfold flushFinish
  split <;> rfl

theorem flushFinish_totalCommands (env : Env) (i : Importer) :
    (flushFinish env i).totalCommands = i.totalCommands := by
  unfold flushFinish
  split <;> rfl

theorem flushFinish_writeCount (env : Env) (i : Importer) :
    (flushFinish env i).writeCount = i.writeCount + 1 := by
  unfold flushFinish
  split <;> rfl

theorem flushFinish_throttlePointsWritten (env : Env) (i : Importer) :
    (flushFinish env i).throttlePointsWritten = 0 := by
  unfold flushFinish
  split <;> rfl

theorem flushFinish_lastWrite (env : Env) (i : Importer) :
    (flushFinish env i).lastWrite = env.clock i.clockReads := by
  unfold flushFinish
  split <;> rfl

theorem flushFinish_clockReads (env : Env) (i : Importer) :
    (flushFinish env i).clockReads = i.clockReads + 1 := by
  unfold flushFinish
  split <;> rfl

theorem flushFinish_counts (env : Env) (i : Importer) :
    (flushFinish env i).totalInserts + (flushFinish env i).failedInserts
      = i.totalInserts + i.failedInserts + i.batch.length := by
  unfold flushFinish
  split <;> simp <;> omega

theorem flushFinish_ok (env : Env) (i : Importer) (h : env.writeOk i.writeCount = true) :
    (flushFinish env i).totalInserts = i.totalInserts + i.batch.length ∧
    (flushFinish env i).failedInserts = i.failedInserts ∧
    (flushFinish env i).output = i.output ++ [OutputEvent.write (writeCallOf i) true] := by
  unfold flushFinish
  rw [h]
  simp

theorem flushFinish_err (env : Env) (i : Importer) (h : env.writeOk i.writeCount = false) :
    (flushFinish env i).failedInserts = i.failedInserts + i.batch.length ∧
    (flushFinish env i).totalInserts = i.totalInserts ∧
    (flushFinish env i).output = i.output ++
      [OutputEvent.write (writeCallOf i) false,
       OutputEvent.capture (goJoin "\n" i.batch)] := by
  unfold flushFinish
  rw [h]
  simp

theorem flushFinish_write_mem (env : Env) (i : Importer) (c : WriteCall) (k : Bool)
    (hm : OutputEvent.write c k ∈ (flushFinish env i).output) :
    OutputEvent.write c k ∈ i.output ∨ c.database = i.database := by
  unfold flushFinish at hm
  split at hm
  · rcases List.mem_append.mp hm with h1 | h1
    · exact Or.inl h1
    · simp only [List.mem_singleton, OutputEvent.write.injEq] at h1
      exact Or.inr (by rw [h1.1]; rfl)
  · rcases List.mem_append.mp hm with h1 | h1
    · exact Or.inl h1
    · rcases List.mem_cons.mp h1 with h2 | h2
      · simp only [OutputEvent.write.injEq] at h2
        exact Or.inr (by rw [h2.1]; rfl)
      · simp at h2

/-! ## Characterization of `batchWrite` -/

theorem batchWrite_retry_state (i : Importer) :
    { bumpClock 1 (accumTPW i) with
        throttlePointsWritten :=
          (accumTPW i).throttlePointsWritten - ((accumTPW i).batch.length : Int) } =
      bumpClock 1 i := by
  cases i
  simp [bumpClock, accumTPW, add_sub_cancel_right]

theorem batchWrite_succ (env : Env) (fuel : Nat) (i : Importer) :
    batchWrite env (fuel + 1) i =
      if attemptRate env i > i.config.PPS ∧ i.config.PPS ≠ 0 then
        batchWrite env fuel (bumpClock 1 i)
      else
        some (flushFinish env (bumpClock 1 (accumTPW i))) := by
  rw [batchWrite, batchWrite_retry_state]

/-- Resolution of `batchWrite`: some number `k` of over-rate attempts each
waited a tick (consuming one clock reading, with the provisional accumulation
undone), then the rate check passed and the flush resolved. -/
theorem batchWrite_elim (env : Env) :
    ∀ (fuel : Nat) (i i' : Importer), batchWrite env fuel i = some i' →
      ∃ k : Nat, k < fuel ∧
        (∀ j, j < k → attemptRate env (bumpClock j i) > i.config.PPS ∧ i.config.PPS ≠ 0) ∧
        ¬(attemptRate env (bumpClock k i) > i.config.PPS ∧ i.config.PPS ≠ 0) ∧
        i' = flushFinish env (bumpClock 1 (accumTPW (bumpClock k i))) := by
  intro fuel
  induction fuel with
  | zero =>
    intro i i' h
    simp [batchWrite] at h
  | succ fuel ih =>
    intro i i' h
    rw [batchWrite_succ] at h
    by_cases hc : attemptRate env i > i.config.PPS ∧ i.config.PPS ≠ 0
    · rw [if_pos hc] at h
      rcases ih (bumpClock 1 i) i' h with ⟨k, hk, hall, hnot, heq⟩
      refine ⟨k + 1, by omega, ?_, ?_, ?_⟩
      · intro j hj
        cases j with
        | zero => rw [bumpClock_zero]; exact hc
        | succ m =>
          have hm := hall m (by omega)
          rw [bumpClock_bumpClock] at hm
          simpa using hm
      · have := hnot
        rw [bumpClock_bumpClock] at this
        simpa using this
      · rw [bumpClock_bumpClock] at heq
        exact heq
    · rw [if_neg hc] at h
      refine ⟨0, by omega, by omega, ?_, ?_⟩
      · rw [bumpClock_zero]; exact hc
      · rw [bumpClock_zero]
        exact (Option.some.injEq _ _ ▸ h).symm

theorem batchWrite_some (env : Env) (fuel : Nat) (i i' : Importer)
    (h : batchWrite env fuel i = some i') :
    ∃ k : Nat, i' = flushFinish env (bumpClock 1 (accumTPW (bumpClock k i))) := by
  rcases batchWrite_elim env fuel i i' h with ⟨k, _, _, _, heq⟩
  exact ⟨k, heq⟩

theorem batchWrite_counts (env : Env) (fuel : Nat) (i i' : Importer)
    (h : batchWrite env fuel i = some i') :
    i'.totalInserts + i'.failedInserts
        = i.totalInserts + i.failedInserts + i.batch.length ∧
      i'.batch = i.batch := by
  rcases batchWrite_some env fuel i i' h with ⟨k, rfl⟩
  constructor
  · rw [flushFinish_counts]
    simp
  · rw [flushFinish_batch]
    simp

theorem batchWrite_writes (env : Env) (fuel : Nat) (i i' : Importer)
    (h : batchWrite env fuel i = some i') :
    i'.database = i.database ∧ i'.retentionPolicy = i.retentionPolicy ∧
      i'.createDatabaseQuery = i.createDatabaseQuery ∧ i'.config = i.config ∧
      ∀ (c : WriteCall) (b : Bool), OutputEvent.write c b ∈ i'.output →
        OutputEvent.write c b ∈ i.output ∨ c.database = i.database := by
  rcases batchWrite_some env fuel i i' h with ⟨k, rfl⟩
  refine ⟨?_, ?_, ?_, ?_, ?_⟩
  · rw [flushFinish_database]; simp
  · rw [flushFinish_retentionPolicy]; simp
  · rw [flushFinish_createDatabaseQuery]; simp
  · rw [flushFinish_config]; simp
  · intro c b hm
    rcases flushFinish_write_mem _ _ _ _ hm with h1 | h1
    · exact Or.inl (by simpa using h1)
    · exact Or.inr (by simpa using h1)

/-- Resolving a flush resets the rate window: zero accumulated count and
`lastWrite` refreshed from the final clock reading, and exactly one transport
write was issued. -/
theorem batchWrite_window (env : Env) (fuel : Nat) (i i' : Importer)
    (h : batchWrite env fuel i = some i') :
    i'.throttlePointsWritten = 0 ∧ 0 < i'.clockReads ∧
      i'.lastWrite = env.clock (i'.clockReads - 1) ∧
      i'.writeCount = i.writeCount + 1 := by
  rcases batchWrite_some env fuel i i' h with ⟨k, rfl⟩
  refine ⟨flushFinish_throttlePointsWritten _ _, ?_, ?_, ?_⟩
  · rw [flushFinish_clockReads]
    omega
  · rw [flushFinish_lastWrite, flushFinish_clockReads]
    simp
  · rw [flushFinish_writeCount]
    simp

/-! ## Lemmas about `batchAccumulator` -/

theorem batchAccumulator_counts (env : Env) (fuel : Nat) (line : String) (i i' : Importer)
    (h : batchAccumulator env fuel line i = some i') :
    i'.totalInserts + i'.failedInserts + i'.batch.length
      = i.totalInserts + i.failedInserts + i.batch.length + 1 := by
  simp only [batchAccumulator] at h
  split at h
  · cases hbw : batchWrite env fuel { i with batch := i.batch ++ [line] } with
    | none => rw [hbw] at h; cases h
    | some i2 =>
      rw [hbw] at h
      cases h
      have hc := (batchWrite_counts env fuel _ _ hbw).1
      simp only [List.length_append, List.length_cons, List.length_nil] at hc
      simp only [List.length_nil]
      omega
  · cases h
    simp only [List.length_append, List.length_cons, List.length_nil]
    omega

theorem batchAccumulator_writes (env : Env) (fuel : Nat) (line : String) (i i' : Importer)
    (h : batchAccumulator env fuel line i = some i') :
    i'.database = i.database ∧ i'.retentionPolicy = i.retentionPolicy ∧
      i'.createDatabaseQuery = i.createDatabaseQuery ∧ i'.config = i.config ∧
      ∀ (c : WriteCall) (b : Bool), OutputEvent.write c b ∈ i'.output →
        OutputEvent.write c b ∈ i.output ∨ c.database = i.database := by
  simp only [batchAccumulator] at h
  split at h
  · cases hbw : batchWrite env fuel { i with batch := i.batch ++ [line] } with
    | none => rw [hbw] at h; cases h
    | some i2 =>
      rw [hbw] at h
      cases h
      have hw := batchWrite_writes env fuel _ _ hbw
      exact ⟨hw.1, hw.2.1, hw.2.2.1, hw.2.2.2.1, fun c b hm => hw.2.2.2.2 c b hm⟩
  · cases h
    exact ⟨rfl, rfl, rfl, rfl, fun c b hm => Or.inl hm⟩

theorem batchAccumulator_batchlen (env : Env) (fuel : Nat) (line : String) (i i' : Importer)
    (hlt : i.batch.length < batchSize)
    (h : batchAccumulator env fuel line i = some i') :
    i'.batch.length < batchSize ∧ (i.batch.length + 1 = batchSize → i'.batch = []) := by
  simp only [batchAccumulator] at h
  split at h
  · cases hbw : batchWrite env fuel { i with batch := i.batch ++ [line] } with
    | none => rw [hbw] at h; cases h
    | some i2 =>
      rw [hbw] at h
      cases h
      refine ⟨?_, fun _ => rfl⟩
      simp only [List.length_nil]
      have : 0 < batchSize := by decide
      exact this
  · next hlen =>
    cases h
    simp only [List.length_append, List.length_cons, List.length_nil] at hlen ⊢
    constructor
    · omega
    · intro hcontra
      exact absurd (by omega) hlen

/-! ## Lemmas about `applyContext` -/

theorem applyContext_counts (dbov rpov line : String) (i : Importer) :
    (applyContext dbov rpov line i).totalInserts = i.totalInserts ∧
    (applyContext dbov rpov line i).failedInserts = i.failedInserts ∧
    (applyContext dbov rpov line i).batch = i.batch ∧
    (applyContext dbov rpov line i).output = i.output ∧
    (applyContext dbov rpov line i).createDatabaseQuery = i.createDatabaseQuery ∧
    (applyContext dbov rpov line i).config = i.config := by
  simp only [applyContext]
  split <;> split <;> exact ⟨rfl, rfl, rfl, rfl, rfl, rfl⟩

theorem applyContext_database_override (dbov rpov line : String) (i : Importer)
    (h : dbov ≠ "") :
    (applyContext dbov rpov line i).database = i.database := by
  have hC : ¬(dbov = "" ∧ goStartsWith line ctxDatabase = true) := fun hc => h hc.1
  simp only [applyContext, if_neg hC]
  split <;> rfl

theorem applyContext_retention_override (dbov rpov line : String) (i : Importer)
    (h : rpov ≠ "") :
    (applyContext dbov rpov line i).retentionPolicy = i.retentionPolicy := by
  have hC : ¬(rpov = "" ∧ goStartsWith line ctxRetention = true) := fun hc => h hc.1
  simp only [applyContext, if_neg hC]
  split <;> rfl

theorem applyContext_database_value (rpov line : String) (i : Importer)
    (h : goStartsWith line ctxDatabase = true) :
    (applyContext "" rpov line i).database =
      goTrimSpace ((goSplit line ':').getD 1 "") := by
  by_cases hR : rpov = "" ∧ goStartsWith line ctxRetention = true <;>
    simp [applyContext, h, hR]

theorem applyContext_retention_value (dbov line : String) (i : Importer)
    (h : goStartsWith line ctxRetention = true) :
    (applyContext dbov "" line i).retentionPolicy =
      goTrimSpace ((goSplit line ':').getD 1 "") := by
  by_cases hD : dbov = "" ∧ goStartsWith line ctxDatabase = true <;>
    simp [applyContext, h, hD]

/-! ## Classification of lines -/

theorem isDataLine_false_of_comment {line : String} (h : goStartsWith line "#" = true) :
    isDataLine line = false := by
  simp [isDataLine, h]

theorem isDataLine_false_of_blank {line : String} (h : goTrimSpace line = "") :
    isDataLine line = false := by
  simp [isDataLine, h]

theorem isDataLine_true {line : String} (h1 : ¬goStartsWith line "#" = true)
    (h2 : ¬goTrimSpace line = "") : isDataLine line = true := by
  simp only [isDataLine, Bool.and_eq_true, Bool.not_eq_true']
  constructor
  · simpa using h1
  · simpa [beq_eq_false_iff_ne] using h2

/-! ## Lemmas about the `processDML` scan loop -/

/-- Data-line accounting through the scan loop: each data line adds exactly
one to `totalInserts + failedInserts + len(batch)`, and the final flush moves
the leftover batch into the counters. -/
theorem processDMLLoop_counts (env : Env) (fuel : Nat) (dbov rpov : String) :
    ∀ (lines : List String) (i i' : Importer),
      processDMLLoop env fuel dbov rpov lines i = some i' →
      i'.totalInserts + i'.failedInserts
        = i.totalInserts + i.failedInserts + i.batch.length
          + (lines.filter isDataLine).length := by
  intro lines
  induction lines with
  | nil =>
    intro i i' h
    have hc := (batchWrite_counts env fuel i i' h).1
    simpa using hc
  | cons line rest ih =>
    intro i i' h
    simp only [processDMLLoop] at h
    rcases applyContext_counts dbov rpov line i with ⟨hti, hfi, hba, -, -, -⟩
    by_cases h1 : goStartsWith line "#" = true
    · rw [if_pos h1] at h
      have hrec := ih _ _ h
      rw [hti, hfi, hba] at hrec
      rw [hrec, List.filter_cons, isDataLine_false_of_comment h1]
      simp
    · rw [if_neg h1] at h
      by_cases h2 : goTrimSpace line = ""
      · rw [if_pos h2] at h
        have hrec := ih _ _ h
        rw [hti, hfi, hba] at hrec
        rw [hrec, List.filter_cons, isDataLine_false_of_blank h2]
        simp
      · rw [if_neg h2] at h
        cases hacc : batchAccumulator env fuel line (applyContext dbov rpov line i) with
        | none => rw [hacc] at h; cases h
        | some i2 =>
          rw [hacc] at h
          have hstep := batchAccumulator_counts env fuel line _ i2 hacc
          have hrec := ih _ _ h
          rw [hti, hfi, hba] at hstep
          rw [List.filter_cons, isDataLine_true h1 h2]
          simp only [eq_self_iff_true, if_true, List.length_cons]
          omega

/-- With a destination-database override in force, the scan loop never changes
the target database or the schema command, and every transport write it emits
targets the invariant database. -/
theorem processDMLLoop_override (env : Env) (fuel : Nat) (dbov rpov d : String)
    (hdb : dbov ≠ "") :
    ∀ (lines : List String) (i i' : Importer),
      i.database = d → writesTarget d i.output →
      processDMLLoop env fuel dbov rpov lines i = some i' →
      i'.database = d ∧ i'.createDatabaseQuery = i.createDatabaseQuery ∧
        writesTarget d i'.output := by
  intro lines
  induction lines with
  | nil =>
    intro i i' hd hw h
    rcases batchWrite_writes env fuel i i' h with ⟨h1, -, h3, -, h5⟩
    exact ⟨h1.trans hd, h3,
      fun c b hm => (h5 c b hm).elim (hw c b) (fun e => e.trans hd)⟩
  | cons line rest ih =>
    intro i i' hd hw h
    simp only [processDMLLoop] at h
    rcases applyContext_counts dbov rpov line i with ⟨-, -, -, hout, hcdq, -⟩
    have had : (applyContext dbov rpov line i).database = d :=
      (applyContext_database_override dbov rpov line i hdb).trans hd
    have haw : writesTarget d (applyContext dbov rpov line i).output := by
      rw [hout]; exact hw
    by_cases h1 : goStartsWith line "#" = true
    · rw [if_pos h1] at h
      rcases ih _ _ had haw h with ⟨g1, g2, g3⟩
      exact ⟨g1, g2.trans hcdq, g3⟩
    · rw [if_neg h1] at h
      by_cases h2 : goTrimSpace line = ""
      · rw [if_pos h2] at h
        rcases ih _ _ had haw h with ⟨g1, g2, g3⟩
        exact ⟨g1, g2.trans hcdq, g3⟩
      · rw [if_neg h2] at h
        cases hacc : batchAccumulator env fuel line (applyContext dbov rpov line i) with
        | none => rw [hacc] at h; cases h
        | some i2 =>
          rw [hacc] at h
          rcases batchAccumulator_writes env fuel line _ i2 hacc with ⟨a1, -, a3, -, a5⟩
          have hd2 : i2.database = d := a1.trans had
          have hw2 : writesTarget d i2.output := fun c b hm =>
            (a5 c b hm).elim (haw c b) (fun e => e.trans had)
          rcases ih _ _ hd2 hw2 h with ⟨g1, g2, g3⟩
          exact ⟨g1, (g2.trans a3).trans hcdq, g3⟩

/-- The batch never reaches beyond the capacity during the scan loop. -/
theorem processDMLLoop_batchlen (env : Env) (fuel : Nat) (dbov rpov : String) :
    ∀ (lines : List String) (i i' : Importer),
      i.batch.length < batchSize →
      processDMLLoop env fuel dbov rpov lines i = some i' →
      i'.batch.length < batchSize := by
  intro lines
  induction lines with
  | nil =>
    intro i i' hlt h
    have hb := (batchWrite_counts env fuel i i' h).2
    rw [hb]
    exact hlt
  | cons line rest ih =>
    intro i i' hlt h
    simp only [processDMLLoop] at h
    rcases applyContext_counts dbov rpov line i with ⟨-, -, hba, -, -, -⟩
    have hlt1 : (applyContext dbov rpov line i).batch.length < batchSize := by
      rw [hba]; exact hlt
    by_cases h1 : goStartsWith line "#" = true
    · rw [if_pos h1] at h
      exact ih _ _ hlt1 h
    · rw [if_neg h1] at h
      by_cases h2 : goTrimSpace line = ""
      · rw [if_pos h2] at h
        exact ih _ _ hlt1 h
      · rw [if_neg h2] at h
        cases hacc : batchAccumulator env fuel line (applyContext dbov rpov line i) with
        | none => rw [hacc] at h; cases h
        | some i2 =>
          rw [hacc] at h
          exact ih _ _ (batchAccumulator_batchlen env fuel line _ i2 hlt1 hacc).1 h

/-! ## Lemmas about `processDML` as a whole -/

theorem processDML_counts (env : Env) (fuel : Nat) (dbov rpov : String)
    (lines : List String) (i i' : Importer)
    (h : processDML env fuel dbov rpov lines i = some i') :
    i'.totalInserts + i'.failedInserts
      = i.totalInserts + i.failedInserts + i.batch.length
        + (lines.filter isDataLine).length := by
  simp only [processDML, queryExecutor] at h
  split at h <;> split at h <;>
    · have hrec := processDMLLoop_counts env fuel dbov rpov lines _ i' h
      simpa using hrec

theorem writesTarget_append_query (d cmd db : String) (l : List OutputEvent)
    (h : writesTarget d l) : writesTarget d (l ++ [OutputEvent.query cmd db]) := by
  intro c b hm
  rcases List.mem_append.mp hm with h1 | h1
  · exact h c b h1
  · simp at h1

theorem processDML_override (env : Env) (fuel : Nat) (d rpov : String)
    (lines : List String) (i i' : Importer) (hd : d ≠ "")
    (ho : writesTarget d i.output)
    (h : processDML env fuel d rpov lines i = some i') :
    i'.database = d ∧ i'.createDatabaseQuery = "CREATE DATABASE " ++ d ∧
      writesTarget d i'.output := by
  simp only [processDML, queryExecutor] at h
  rw [if_pos hd] at h
  split at h
  · rcases processDMLLoop_override env fuel d rpov d hd lines _ i' rfl
      (writesTarget_append_query d _ _ _ ho) h with ⟨g1, g2, g3⟩
    exact ⟨g1, g2, g3⟩
  · rcases processDMLLoop_override env fuel d rpov d hd lines _ i' rfl
      (writesTarget_append_query d _ _ _ ho) h with ⟨g1, g2, g3⟩
    exact ⟨g1, g2, g3⟩

/-! ## `processDDL` and `importRun` helpers -/

theorem getLastD_cons {α : Type _} (a d : α) (l : List α) :
    ((a :: l).getLast?).getD d = (l.getLast?).getD a := by
  cases l with
  | nil => rfl
  | cons b t =>
    rw [List.getLast?_cons_cons]
    cases hx : (b :: t).getLast? with
    | none => simp at hx
    | some x => rfl

theorem importRun_elim (env : Env) (fuel : Nat) (dbov rpov : String)
    (lines : List String) (i i' : Importer) (res : Option String)
    (h : importRun env fuel dbov rpov lines i = some (i', res)) :
    res = importOutcome i'.failedInserts := by
  simp only [importRun] at h
  split at h
  · cases h
  · simp only [Option.some.injEq, Prod.mk.injEq] at h
    rcases h with ⟨h1, h2⟩
    rw [← h2, h1]

theorem importOutcome_none_iff (n : Nat) : importOutcome n = none ↔ n = 0 := by
  cases n with
  | zero => simp [importOutcome]
  | succ m => simp [importOutcome]

theorem importOutcome_one : importOutcome 1 = some "1 point was not inserted" := rfl

theorem importOutcome_many (n : Nat) (h : 1 < n) :
    importOutcome n = some (toString n ++ " points were not inserted") := by
  unfold importOutcome
  rw [if_pos (by omega), if_pos h, String.append_assoc, String.append_assoc]
  rfl

/-! ## Resolution of the concrete witness runs -/

theorem c1run_isSome : c1run.isSome = true := rfl

theorem c1run_eq :
    processDML envTriv 1 "" "" ["a", "#c", " ", "b"] (newImporter cfg0)
      = some (c1run.get c1run_isSome) :=
  (Option.some_get c1run_isSome).symm

theorem c2run_isSome : c2run.isSome = true := rfl

theorem c2run_eq : batchWrite envTriv 1 c2st = some (c2run.get c2run_isSome) :=
  (Option.some_get c2run_isSome).symm

theorem c3run_isSome : c3run.isSome = true := rfl

theorem c3run_eq : batchWrite envFail 1 c3st = some (c3run.get c3run_isSome) :=
  (Option.some_get c3run_isSome).symm

theorem c4run_isSome : c4run.isSome = true := rfl

theorem c4run_eq :
    importRun envFail 1 "" "" ["# DDL", "CREATE DATABASE t", "# DML", "x", "y"]
        (newImporter cfg0)
      = some (c4run.get c4run_isSome) :=
  (Option.some_get c4run_isSome).symm

theorem c5run_isSome : c5run.isSome = true := rfl

theorem c5run_eq :
    processDMLLoop envTriv 1 "" "" ["x"] (newImporter cfg0)
      = some (c5run.get c5run_isSome) :=
  (Option.some_get c5run_isSome).symm

theorem c7run_isSome : c7run.isSome = true := rfl

theorem c7run_eq :
    processDML envTriv 1 "bar" "" ["# CONTEXT-DATABASE: foo", "m v=1"]
        (newImporter cfg0)
      = some (c7run.get c7run_isSome) :=
  (Option.some_get c7run_isSome).symm

theorem c9run_isSome : c9run.isSome = true := rfl

theorem c9run_eq : batchWrite envTriv 1 c9st = some (c9run.get c9run_isSome) :=
  (Option.some_get c9run_isSome).symm

/-! # The claims -/

/-- C1: over a full phase-2 run (`processDML`: the scan plus the end-of-stream
flush) that resolves, starting from an empty batch and zero counters,
`totalInserts + failedInserts` equals the number of data lines — lines neither
blank nor comment-prefixed — in the input stream: every data line is counted
exactly once, in exactly one of the two counters. -/
theorem processDML_data_accounting (env : Env) (fuel : Nat) (dbov rpov : String)
    (lines : List String) (i i' : Importer)
    (hb : i.batch = []) (ht : i.totalInserts = 0) (hf : i.failedInserts = 0)
    (h : processDML env fuel dbov rpov lines i = some i') :
    i'.totalInserts + i'.failedInserts = (lines.filter isDataLine).length := by
  have hc := processDML_counts env fuel dbov rpov lines i i' h
  rw [ht, hf, hb] at hc
  simpa using hc

theorem processDML_data_accounting_witness :
    (c1run.get c1run_isSome).totalInserts + (c1run.get c1run_isSome).failedInserts
      = ((["a", "#c", " ", "b"] : List String).filter isDataLine).length :=
  processDML_data_accounting envTriv 1 "" "" ["a", "#c", " ", "b"]
    (newImporter cfg0) (c1run.get c1run_isSome) rfl rfl rfl c1run_eq

/-- C2: a resolving flush consists of `k ≥ 0` over-rate attempts followed by
the write.  At every attempt the current rate (`attemptRate`) is the raw
accumulated count — including the provisionally added batch length — when the
elapsed time since the last write is zero or negative, and the accumulated
count divided by the elapsed seconds (truncated) otherwise; each of the first
`k` attempts saw the rate exceed a configured nonzero limit and only waited
one timer tick, re-entering the next attempt with the accumulated count
restored (the batch length subtracted back out, visible in `bumpClock j i`
carrying the original `throttlePointsWritten`); at attempt `k` the check
passed (limit zero/unset or the rate within it) and exactly one transport
write was then issued (`flushFinish`). -/
theorem batchWrite_rate_gate (env : Env) (fuel : Nat) (i i' : Importer)
    (h : batchWrite env fuel i = some i') :
    ∃ k : Nat,
      (∀ j, j < k →
        attemptRate env (bumpClock j i) > i.config.PPS ∧ i.config.PPS ≠ 0) ∧
      ¬(attemptRate env (bumpClock k i) > i.config.PPS ∧ i.config.PPS ≠ 0) ∧
      i' = flushFinish env (bumpClock 1 (accumTPW (bumpClock k i))) ∧
      i'.writeCount = i.writeCount + 1 := by
  rcases batchWrite_elim env fuel i i' h with ⟨k, -, hall, hnot, heq⟩
  refine ⟨k, hall, hnot, heq, ?_⟩
  rw [heq, flushFinish_writeCount]
  simp

theorem batchWrite_rate_gate_witness :
    ∃ k : Nat,
      (∀ j, j < k →
        attemptRate envTriv (bumpClock j c2st) > c2st.config.PPS ∧
          c2st.config.PPS ≠ 0) ∧
      ¬(attemptRate envTriv (bumpClock k c2st) > c2st.config.PPS ∧
          c2st.config.PPS ≠ 0) ∧
      c2run.get c2run_isSome
          = flushFinish envTriv (bumpClock 1 (accumTPW (bumpClock k c2st))) ∧
      (c2run.get c2run_isSome).writeCount = c2st.writeCount + 1 :=
  batchWrite_rate_gate envTriv 1 c2st (c2run.get c2run_isSome) c2run_eq

/-- C3: a resolving flush issues exactly one transport write carrying the
whole joined batch (never a subset).  On failure, `failedInserts` grows by
exactly the batch length and the batch's lines, joined by newlines, are
re-emitted verbatim to the capture sink; on success `totalInserts` grows by
exactly the batch length.  The flush returns normally either way, so
processing continues with subsequent batches. -/
theorem batchWrite_failure_handling (env : Env) (fuel : Nat) (i i' : Importer)
    (h : batchWrite env fuel i = some i') :
    (env.writeOk i.writeCount = true →
      i'.totalInserts = i.totalInserts + i.batch.length ∧
      i'.failedInserts = i.failedInserts ∧
      i'.output = i.output ++ [OutputEvent.write (writeCallOf i) true]) ∧
    (env.writeOk i.writeCount = false →
      i'.failedInserts = i.failedInserts + i.batch.length ∧
      i'.totalInserts = i.totalInserts ∧
      i'.output = i.output ++ [OutputEvent.write (writeCallOf i) false,
        OutputEvent.capture (goJoin "\n" i.batch)]) := by
  rcases batchWrite_some env fuel i i' h with ⟨k, rfl⟩
  constructor
  · intro hok
    have hf := flushFinish_ok env (bumpClock 1 (accumTPW (bumpClock k i)))
      (by simpa using hok)
    simpa [writeCallOf_eq] using hf
  · intro hok
    have hf := flushFinish_err env (bumpClock 1 (accumTPW (bumpClock k i)))
      (by simpa using hok)
    simpa [writeCallOf_eq] using hf

theorem batchWrite_failure_handling_witness :
    (envFail.writeOk c3st.writeCount = true →
      (c3run.get c3run_isSome).totalInserts = c3st.totalInserts + c3st.batch.length ∧
      (c3run.get c3run_isSome).failedInserts = c3st.failedInserts ∧
      (c3run.get c3run_isSome).output
        = c3st.output ++ [OutputEvent.write (writeCallOf c3st) true]) ∧
    (envFail.writeOk c3st.writeCount = false →
      (c3run.get c3run_isSome).failedInserts = c3st.failedInserts + c3st.batch.length ∧
      (c3run.get c3run_isSome).totalInserts = c3st.totalInserts ∧
      (c3run.get c3run_isSome).output
        = c3st.output ++ [OutputEvent.write (writeCallOf c3st) false,
            OutputEvent.capture (goJoin "\n" c3st.batch)]) :=
  batchWrite_failure_handling envFail 1 c3st (c3run.get c3run_isSome) c3run_eq

/-- C4: for a run whose setup succeeded and whose scan reported no read error
(`importRun` resolving), the outcome is a failure exactly when
`failedInserts > 0`, with message `"1 point was not inserted"` when it is 1
and `"N points were not inserted"` when it exceeds 1; with zero failed
inserts the outcome is success. -/
theorem importRun_outcome (env : Env) (fuel : Nat) (dbov rpov : String)
    (lines : List String) (i i' : Importer) (res : Option String)
    (h : importRun env fuel dbov rpov lines i = some (i', res)) :
    (res = none ↔ i'.failedInserts = 0) ∧
    (i'.failedInserts = 1 → res = some "1 point was not inserted") ∧
    (1 < i'.failedInserts →
      res = some (toString i'.failedInserts ++ " points were not inserted")) := by
  have hr := importRun_elim env fuel dbov rpov lines i i' res h
  refine ⟨?_, ?_, ?_⟩
  · rw [hr]
    exact importOutcome_none_iff _
  · intro h1
    rw [hr, h1]
    exact importOutcome_one
  · intro h1
    rw [hr]
    exact importOutcome_many _ h1

theorem importRun_outcome_witness :
    ((c4run.get c4run_isSome).2 = none ↔
        (c4run.get c4run_isSome).1.failedInserts = 0) ∧
    ((c4run.get c4run_isSome).1.failedInserts = 1 →
      (c4run.get c4run_isSome).2 = some "1 point was not inserted") ∧
    (1 < (c4run.get c4run_isSome).1.failedInserts →
      (c4run.get c4run_isSome).2
        = some (toString (c4run.get c4run_isSome).1.failedInserts
            ++ " points were not inserted")) :=
  importRun_outcome envFail 1 "" ""
    ["# DDL", "CREATE DATABASE t", "# DML", "x", "y"] (newImporter cfg0)
    (c4run.get c4run_isSome).1 (c4run.get c4run_isSome).2 c4run_eq

/-- C5 counterexample: scanning the single data line `"x"` flushes once at end
of stream (the one point is inserted), yet the final state's batch still holds
the line — the end-of-stream flush did not reset the accumulator to empty. -/
theorem final_flush_keeps_batch :
    c5cexRun.map Importer.totalInserts = some 1 ∧
      c5cexRun.map Importer.batch = some ["x"] :=
  ⟨rfl, rfl⟩

/-- C5 (amended): every capacity-triggered flush — performed by the
accumulator when the batch reaches 5000 — resets the accumulator to the empty
state, so the next accepted line starts a fresh batch, and the batch length
never exceeds the capacity at any point between operations; the end-of-stream
flush, however, writes the leftover batch without clearing it (the run ends
immediately after), so after a resolving scan loop the batch length is still
at most the capacity but not necessarily zero. -/
theorem batch_reset_and_capacity :
    (∀ (env : Env) (fuel : Nat) (line : String) (i i' : Importer),
      i.batch.length < batchSize →
      batchAccumulator env fuel line i = some i' →
      (i.batch.length + 1 = batchSize → i'.batch = []) ∧
        i'.batch.length < batchSize) ∧
    (∀ (env : Env) (fuel : Nat) (dbov rpov : String) (lines : List String)
        (i i' : Importer),
      i.batch.length < batchSize →
      processDMLLoop env fuel dbov rpov lines i = some i' →
      i'.batch.length ≤ batchSize) := by
  constructor
  · intro env fuel line i i' hlt h
    have hb := batchAccumulator_batchlen env fuel line i i' hlt h
    exact ⟨hb.2, hb.1⟩
  · intro env fuel dbov rpov lines i i' hlt h
    exact Nat.le_of_lt (processDMLLoop_batchlen env fuel dbov rpov lines i i' hlt h)

theorem batch_reset_and_capacity_witness :
    (c5run.get c5run_isSome).batch.length ≤ batchSize :=
  batch_reset_and_capacity.2 envTriv 1 "" "" ["x"] (newImporter cfg0)
    (c5run.get c5run_isSome) (by decide) c5run_eq

/-- C6 counterexample: on the directive line `"# CONTEXT-DATABASE: a:b"` with
no override, the code sets the target database to `"a"` — the trimmed element
1 of the colon-split, the text between the first and second colons — and not
to the trimmed entire remainder after the first colon, which is `"a:b"`. -/
theorem context_value_not_remainder :
    c6cexRun.map Importer.database = some "a" ∧
      specContextValue "# CONTEXT-DATABASE: a:b" = "a:b" ∧
      some "a" ≠ some (specContextValue "# CONTEXT-DATABASE: a:b") := by
  refine ⟨rfl, rfl, ?_⟩
  decide

/-- C6 (amended): for a phase-2 line carrying the database-context directive
with no database override — and symmetrically for the retention-policy
directive — the session's target value is set to the trimmed text strictly
between the first colon and the next colon, or to the trimmed remainder of the
line when there is no second colon (element 1 of the colon-split). -/
theorem context_value_between_colons (dline rline rpov dbov : String)
    (i j : Importer)
    (hd : goStartsWith dline ctxDatabase = true)
    (hr : goStartsWith rline ctxRetention = true) :
    (applyContext "" rpov dline i).database
        = goTrimSpace (upToColon (specAfterFirstColon dline)) ∧
      (applyContext dbov "" rline j).retentionPolicy
        = goTrimSpace (upToColon (specAfterFirstColon rline)) := by
  constructor
  · rw [applyContext_database_value rpov dline i hd]
    have hm : (':' : Char) ∈ dline.data :=
      mem_data_of_goStartsWith hd (by decide)
    rw [goSplit_getD_one dline hm]
    rfl
  · rw [applyContext_retention_value dbov rline j hr]
    have hm : (':' : Char) ∈ rline.data :=
      mem_data_of_goStartsWith hr (by decide)
    rw [goSplit_getD_one rline hm]
    rfl

theorem context_value_between_colons_witness :
    (applyContext "" "" "# CONTEXT-DATABASE: foo" (newImporter cfg0)).database
        = goTrimSpace (upToColon (specAfterFirstColon "# CONTEXT-DATABASE: foo")) ∧
      (applyContext "" "" "# CONTEXT-RETENTION-POLICY: rp0"
          (newImporter cfg0)).retentionPolicy
        = goTrimSpace (upToColon
            (specAfterFirstColon "# CONTEXT-RETENTION-POLICY: rp0")) :=
  context_value_between_colons "# CONTEXT-DATABASE: foo"
    "# CONTEXT-RETENTION-POLICY: rp0" "" "" (newImporter cfg0) (newImporter cfg0)
    (by decide) (by decide)

/-- C7: with a destination-database override `d` supplied, the schema command
is replaced entirely by `CREATE DATABASE d`, the session's target database is
`d` at the end of the run, and every transport write of the run targets `d`,
no matter how many context directives appear in the stream or where. -/
theorem override_always_wins (env : Env) (fuel : Nat) (d rpov : String)
    (lines : List String) (i i' : Importer)
    (hd : d ≠ "") (ho : i.output = [])
    (h : processDML env fuel d rpov lines i = some i') :
    i'.createDatabaseQuery = "CREATE DATABASE " ++ d ∧ i'.database = d ∧
      writesTarget d i'.output := by
  have hw : writesTarget d i.output := by
    rw [ho]
    intro c b hm
    cases hm
  rcases processDML_override env fuel d rpov lines i i' hd hw h with ⟨g1, g2, g3⟩
  exact ⟨g2, g1, g3⟩

theorem override_always_wins_witness :
    (c7run.get c7run_isSome).createDatabaseQuery = "CREATE DATABASE " ++ "bar" ∧
      (c7run.get c7run_isSome).database = "bar" ∧
      writesTarget "bar" (c7run.get c7run_isSome).output :=
  override_always_wins envTriv 1 "bar" ""
    ["# CONTEXT-DATABASE: foo", "m v=1"] (newImporter cfg0)
    (c7run.get c7run_isSome) (by decide) rfl c7run_eq

/-- C8: phase 1 stops at the first line beginning with `# DML`, consuming that
line (the remainder starts right after it); the captured schema command is the
last non-comment, non-blank line seen before the marker, later lines
overwriting earlier ones, with the initial value standing when there is none;
if the stream ends before any marker the phase terminates normally with
whatever was captured and nothing remains. -/
theorem processDDL_spec (lines : List String) (i : Importer) :
    processDDL lines i =
      ({ i with createDatabaseQuery :=
          ((((lines.takeWhile (fun l => !(goStartsWith l dmlMarker))).filter
              isDataLine).getLast?).getD i.createDatabaseQuery) },
       lines.drop
         ((lines.takeWhile (fun l => !(goStartsWith l dmlMarker))).length + 1)) := by
  induction lines generalizing i with
  | nil => rfl
  | cons line rest ih =>
    by_cases h1 : goStartsWith line dmlMarker = true
    · simp only [processDDL, if_pos h1, List.takeWhile_cons, h1]
      simp
    · have h1' : goStartsWith line dmlMarker = false := by simpa using h1
      by_cases h2 : goStartsWith line "#" = true
      · simp only [processDDL, if_neg h1, if_pos h2]
        rw [ih]
        have hd : isDataLine line = false := isDataLine_false_of_comment h2
        simp [List.takeWhile_cons, h1', hd, List.filter_cons, List.drop_succ_cons]
      · by_cases h3 : goTrimSpace line = ""
        · simp only [processDDL, if_neg h1, if_neg h2, if_pos h3]
          rw [ih]
          have hd : isDataLine line = false := isDataLine_false_of_blank h3
          simp [List.takeWhile_cons, h1', hd, List.filter_cons, List.drop_succ_cons]
        · simp only [processDDL, if_neg h1, if_neg h2, if_neg h3]
          rw [ih]
          have hd : isDataLine line = true := isDataLine_true h2 h3
          simp [List.takeWhile_cons, h1', hd, List.filter_cons,
            List.drop_succ_cons, getLastD_cons]

/-- C9: whenever a flush resolves — transport success or failure, after any
number of throttle retries — the rate window is reset: the accumulated count
`throttlePointsWritten` is zero and `lastWrite` is refreshed to the most
recent (current) clock reading. -/
theorem batchWrite_resets_window (env : Env) (fuel : Nat) (i i' : Importer)
    (h : batchWrite env fuel i = some i') :
    i'.throttlePointsWritten = 0 ∧ 0 < i'.clockReads ∧
      i'.lastWrite = env.clock (i'.clockReads - 1) := by
  rcases batchWrite_window env fuel i i' h with ⟨h1, h2, h3, -⟩
  exact ⟨h1, h2, h3⟩

theorem batchWrite_resets_window_witness :
    (c9run.get c9run_isSome).throttlePointsWritten = 0 ∧
      0 < (c9run.get c9run_isSome).clockReads ∧
      (c9run.get c9run_isSome).lastWrite
        = envTriv.clock ((c9run.get c9run_isSome).clockReads - 1) :=
  batchWrite_resets_window envTriv 1 c9st (c9run.get c9run_isSome) c9run_eq

/-- C10: any line passing the prefix check for either context directive
contains a colon (the matched prefix itself does), so its colon-split has at
least two elements and the access to element 1 is always in bounds. -/
theorem context_split_in_bounds (line : String)
    (h : goStartsWith line ctxDatabase = true ∨
      goStartsWith line ctxRetention = true) :
    2 ≤ (goSplit line ':').length := by
  have hm : (':' : Char) ∈ line.data := by
    rcases h with h | h
    · exact mem_data_of_goStartsWith h (by decide)
    · exact mem_data_of_goStartsWith h (by decide)
  rw [goSplit_length]
  have hc := List.count_pos_iff.mpr hm
  omega

theorem context_split_in_bounds_witness :
    2 ≤ (goSplit "# CONTEXT-DATABASE: mydb" ':').length :=
  context_split_in_bounds "# CONTEXT-DATABASE: mydb" (Or.inl (by decide))

end ImporterV8
